import Mathlib

/-!
Shallow embedding of the DBMS-Final-Project ETL pipeline (`import_data.py`)
and of the serving-layer endpoints it feeds (`main.py`).

Database tables are modelled as Lean lists of row structures; the four import
phases become pure functions on that state (plus `Except`-wrappers that model
which exceptions escape each phase body).  Pandas operations are embedded as
the corresponding list operations: `drop_duplicates(keep=first)` is a keyed
first-occurrence de-duplication, `isin` is list membership, `str.replace` on a
single character is a filter, `str.strip` trims both ends.
-/

/-- The single-quote character (code point 39), the character removed by the
normalization steps `str.replace(chr39, emptyString)` in `import_data.py`. -/
def quoteChar : Char := Char.ofNat 39

/-- A one-character string holding `quoteChar`; used to build test fixtures
whose display names carry stray quoting. -/
def quoteStr : String := String.mk [quoteChar]

/-- Whitespace recognized by Python `str.strip()` (the ASCII whitespace set;
the unicode extension is irrelevant to every property proved here because the
proofs only use that this is some fixed character predicate). -/
def isPySpace (c : Char) : Bool :=
  c = ' ' || c = '\t' || c = '\n' || c = '\r' || c = Char.ofNat 11 || c = Char.ofNat 12

/-- Drop the characters satisfying `p` from the left end of a list. -/
def ltrim (p : Char → Bool) (l : List Char) : List Char := l.dropWhile p

/-- Drop the characters satisfying `p` from the right end of a list. -/
def rtrim (p : Char → Bool) (l : List Char) : List Char :=
  (l.reverse.dropWhile p).reverse

/-- Drop the characters satisfying `p` from both ends of a list: the common
shape of Python `str.strip()` and SQL `TRIM(BOTH ch FROM s)`. -/
def trimBothList (p : Char → Bool) (l : List Char) : List Char :=
  rtrim p (ltrim p l)

/-- `str.replace` of the quote character by the empty string: removes every
occurrence of `quoteChar` (embedding of the `.str.replace` calls at
`import_data.py` lines 109, 114, 139, 143, 144, 183, 185). -/
def removeQuotes (s : String) : String :=
  String.mk (s.data.filter (fun c => decide (c ≠ quoteChar)))

/-- Python `str.strip()` (embedding of the `.str.strip()` calls in
`import_data.py`). -/
def pyStrip (s : String) : String := String.mk (trimBothList isPySpace s.data)

/-- The identifier normalization applied throughout `import_data.py`:
remove quote characters, then strip leading/trailing whitespace. -/
def normalizeId (s : String) : String := pyStrip (removeQuotes s)

/-- SQL `TRIM(BOTH quote FROM s)` as used by `main.py` (lines 74, 109, 164):
removes leading and trailing quote characters only. -/
def pgTrimQuotes (s : String) : String :=
  String.mk (trimBothList (fun c => c = quoteChar) s.data)

section TrimLemmas

variable {p : Char → Bool} {l : List Char}

theorem dropWhile_dropWhile_self (p : α → Bool) (l : List α) :
    (l.dropWhile p).dropWhile p = l.dropWhile p := by
  induction l with
  | nil => simp
  | cons x xs ih =>
      cases hp : p x with
      | true => simpa [List.dropWhile_cons_of_pos hp] using ih
      | false =>
          rw [List.dropWhile_cons_of_neg (by simp [hp]),
            List.dropWhile_cons_of_neg (by simp [hp])]

theorem ltrim_ltrim (p : Char → Bool) (l : List Char) :
    ltrim p (ltrim p l) = ltrim p l :=
  dropWhile_dropWhile_self p l

theorem rtrim_rtrim (p : Char → Bool) (l : List Char) :
    rtrim p (rtrim p l) = rtrim p l := by
  unfold rtrim
  rw [List.reverse_reverse, dropWhile_dropWhile_self]

/-- The right trim of a list is a prefix of it. -/
theorem rtrim_prefix_self (p : Char → Bool) (l : List Char) : rtrim p l <+: l := by
  have h : (l.reverse.dropWhile p) <:+ l.reverse := List.dropWhile_suffix p
  have := List.reverse_prefix.mpr h
  simpa [rtrim] using this

/-- If a list is already left-trimmed, its right trim is left-trimmed too. -/
theorem ltrim_rtrim_of_ltrimmed (p : Char → Bool) (l : List Char)
    (h : ltrim p l = l) : ltrim p (rtrim p l) = rtrim p l := by
  cases l with
  | nil =>
      simp [rtrim, ltrim]
  | cons c xs =>
      simp only [ltrim] at h
      have hc : p c = false := by
        cases hpc : p c with
        | false => rfl
        | true =>
            exfalso
            have h2 : List.dropWhile p (c :: xs) = List.dropWhile p xs :=
              List.dropWhile_cons_of_pos hpc
            have h3 : List.dropWhile p xs = c :: xs := by
              rw [← h2]; exact h
            have h4 : (List.dropWhile p xs).length ≤ xs.length :=
              (List.dropWhile_sublist p).length_le
            rw [h3] at h4
            simp at h4
      obtain ⟨t, ht⟩ := rtrim_prefix_self p (c :: xs)
      cases hr : rtrim p (c :: xs) with
      | nil => simp [ltrim]
      | cons d ds =>
          rw [hr] at ht
          have hd : d = c := by
            have := ht
            simp only [List.cons_append] at this
            exact (List.cons.injEq ..).mp this |>.1
          subst hd
          simp only [ltrim]
          exact List.dropWhile_cons_of_neg (by simp [hc])

/-- Trimming both ends is idempotent. -/
theorem trimBothList_idem (p : Char → Bool) (l : List Char) :
    trimBothList p (trimBothList p l) = trimBothList p l := by
  unfold trimBothList
  have h1 : ltrim p (ltrim p l) = ltrim p l := ltrim_ltrim p l
  have h2 : ltrim p (rtrim p (ltrim p l)) = rtrim p (ltrim p l) :=
    ltrim_rtrim_of_ltrimmed p (ltrim p l) h1
  rw [h2, rtrim_rtrim]

/-- Every character of the trimmed list occurs in the original list. -/
theorem mem_of_mem_trimBothList {a : Char} (p : Char → Bool) (l : List Char)
    (h : a ∈ trimBothList p l) : a ∈ l := by
  unfold trimBothList rtrim ltrim at h
  have h1 := List.mem_reverse.mp h
  have h2 := (List.dropWhile_sublist p).subset h1
  have h3 := List.mem_reverse.mp h2
  exact (List.dropWhile_sublist p).subset h3

end TrimLemmas

theorem data_removeQuotes (s : String) :
    (removeQuotes s).data = s.data.filter (fun c => decide (c ≠ quoteChar)) := rfl

theorem data_pyStrip (s : String) :
    (pyStrip s).data = trimBothList isPySpace s.data := rfl

/-- A string with no quote characters is unchanged by `removeQuotes`. -/
theorem removeQuotes_eq_self_of_no_quote (s : String)
    (h : ∀ c ∈ s.data, c ≠ quoteChar) : removeQuotes s = s := by
  have : s.data.filter (fun c => decide (c ≠ quoteChar)) = s.data :=
    List.filter_eq_self.mpr (fun a ha => by simpa using h a ha)
  cases s with
  | mk data => exact congrArg String.mk this

/-- `normalizeId` never leaves a quote character in its output. -/
theorem no_quote_in_normalizeId (s : String) :
    ∀ c ∈ (normalizeId s).data, c ≠ quoteChar := by
  intro c hc
  have h1 : c ∈ (removeQuotes s).data := by
    have := mem_of_mem_trimBothList isPySpace (removeQuotes s).data
      (by simpa [normalizeId, data_pyStrip] using hc)
    exact this
  rw [data_removeQuotes] at h1
  have := List.mem_filter.mp h1
  simpa using this.2

/-- C7 helper: `pyStrip` is idempotent. -/
theorem pyStrip_idem (s : String) : pyStrip (pyStrip s) = pyStrip s := by
  cases s with
  | mk data =>
      simp only [pyStrip]
      exact congrArg String.mk (trimBothList_idem isPySpace data)

/-- C7: the identifier normalization of `import_data.py` (remove quote
characters, then strip leading/trailing whitespace) is idempotent:
`normalizeId (normalizeId x) = normalizeId x` for every string `x`. -/
theorem c7_normalize_idempotent (x : String) :
    normalizeId (normalizeId x) = normalizeId x := by
  unfold normalizeId
  rw [removeQuotes_eq_self_of_no_quote (pyStrip (removeQuotes x))
    (fun c hc => by
      have : c ∈ (removeQuotes x).data :=
        mem_of_mem_trimBothList isPySpace (removeQuotes x).data
          (by simpa [data_pyStrip] using hc)
      rw [data_removeQuotes] at this
      simpa using (List.mem_filter.mp this).2)]
  exact pyStrip_idem (removeQuotes x)

/-! ## Keyed first-occurrence de-duplication (pandas `drop_duplicates(keep=first)`) -/

/-- Worker for `dropDuplicatesBy`: `seen` accumulates the keys of rows
already kept; a row is kept iff its key has not been seen yet. -/
def dedupByAux {α β : Type} (key : α → β) [DecidableEq β]
    (seen : List β) : List α → List α
  | [] => []
  | x :: xs =>
      if key x ∈ seen then dedupByAux key seen xs
      else x :: dedupByAux key (key x :: seen) xs

/-- Pandas `drop_duplicates(subset=[key], keep=first)`: keep the first row
bearing each key, in order. -/
def dropDuplicatesBy {α β : Type} (key : α → β) [DecidableEq β]
    (l : List α) : List α :=
  dedupByAux key [] l

section DedupLemmas

variable {α β : Type} (key : α → β) [DecidableEq β]

theorem dedupByAux_sublist (seen : List β) (l : List α) :
    (dedupByAux key seen l).Sublist l := by
  induction l generalizing seen with
  | nil => simp [dedupByAux]
  | cons x xs ih =>
      simp only [dedupByAux]
      split
      · exact (ih seen).cons x
      · exact (ih (key x :: seen)).cons₂ x

theorem key_not_seen_of_mem_dedupByAux {seen : List β} {l : List α} {y : α}
    (h : y ∈ dedupByAux key seen l) : key y ∉ seen := by
  induction l generalizing seen with
  | nil => simp [dedupByAux] at h
  | cons x xs ih =>
      simp only [dedupByAux] at h
      split at h
      · exact ih h
      · rcases List.mem_cons.mp h with h1 | h1
        · subst h1; assumption
        · intro hy
          exact ih h1 (List.mem_cons_of_mem _ hy)

theorem keys_nodup_dedupByAux (seen : List β) (l : List α) :
    ((dedupByAux key seen l).map key).Nodup := by
  induction l generalizing seen with
  | nil => simp [dedupByAux]
  | cons x xs ih =>
      simp only [dedupByAux]
      split
      · exact ih seen
      · simp only [List.map_cons, List.nodup_cons]
        refine ⟨?_, ih (key x :: seen)⟩
        intro hmem
        rcases List.mem_map.mp hmem with ⟨y, hy, hky⟩
        exact key_not_seen_of_mem_dedupByAux key hy (by simp [hky])

theorem dedupByAux_complete {seen : List β} {l : List α} {x : α}
    (hx : x ∈ l) (hns : key x ∉ seen) :
    ∃ y ∈ dedupByAux key seen l, key y = key x := by
  induction l generalizing seen with
  | nil => simp at hx
  | cons a as ih =>
      simp only [dedupByAux]
      rcases List.mem_cons.mp hx with h1 | h1
      · subst h1
        split
        · exact absurd (by assumption) hns
        · exact ⟨x, List.mem_cons_self .., rfl⟩
      · split
        · exact ih h1 hns
        · by_cases hk : key x = key a
          · exact ⟨a, List.mem_cons_self .., hk.symm⟩
          · have hnotin : key x ∉ key a :: seen := by
              simp only [List.mem_cons]
              push_neg
              exact ⟨hk, hns⟩
            rcases ih h1 hnotin with ⟨y, hy, hky⟩
            exact ⟨y, List.mem_cons_of_mem _ hy, hky⟩

theorem dedupByAux_first_occurrence {seen : List β} {l : List α} {y : α}
    (h : y ∈ dedupByAux key seen l) :
    ∃ l1 l2, l = l1 ++ y :: l2 ∧ ∀ z ∈ l1, key z ≠ key y := by
  induction l generalizing seen with
  | nil => simp [dedupByAux] at h
  | cons x xs ih =>
      simp only [dedupByAux] at h
      split at h
      · rcases ih h with ⟨l1, l2, hl, hz⟩
        refine ⟨x :: l1, l2, by simp [hl], ?_⟩
        intro z hzmem
        rcases List.mem_cons.mp hzmem with h1 | h1
        · subst h1
          intro hkeq
          exact key_not_seen_of_mem_dedupByAux key h (hkeq ▸ (by assumption))
        · exact hz z h1
      · rcases List.mem_cons.mp h with h1 | h1
        · subst h1
          exact ⟨[], xs, rfl, by simp⟩
        · rcases ih h1 with ⟨l1, l2, hl, hz⟩
          refine ⟨x :: l1, l2, by simp [hl], ?_⟩
          intro z hzmem
          rcases List.mem_cons.mp hzmem with h2 | h2
          · subst h2
            intro hkeq
            exact key_not_seen_of_mem_dedupByAux key h1 (by simp [← hkeq])
          · exact hz z h2

/-- On a list whose keys are already pairwise distinct, keyed de-duplication
is the identity. -/
theorem dedupByAux_eq_self_of_nodup {seen : List β} {l : List α}
    (hnd : (l.map key).Nodup) (hns : ∀ x ∈ l, key x ∉ seen) :
    dedupByAux key seen l = l := by
  induction l generalizing seen with
  | nil => rfl
  | cons x xs ih =>
      simp only [dedupByAux]
      rw [if_neg (hns x (List.mem_cons_self ..))]
      congr 1
      apply ih (by simpa using hnd.of_cons)
      intro z hz
      simp only [List.mem_cons]
      push_neg
      constructor
      · intro hkeq
        have : key x ∈ xs.map key := List.mem_map.mpr ⟨z, hz, hkeq⟩
        simp only [List.map_cons, List.nodup_cons] at hnd
        exact hnd.1 this
      · exact hns z (List.mem_cons_of_mem _ hz)

theorem dropDuplicatesBy_sublist (l : List α) : (dropDuplicatesBy key l).Sublist l :=
  dedupByAux_sublist key [] l

theorem keys_nodup_dropDuplicatesBy (l : List α) :
    ((dropDuplicatesBy key l).map key).Nodup :=
  keys_nodup_dedupByAux key [] l

theorem dropDuplicatesBy_complete {l : List α} {x : α} (hx : x ∈ l) :
    ∃ y ∈ dropDuplicatesBy key l, key y = key x :=
  dedupByAux_complete key hx (by simp)

theorem dropDuplicatesBy_first_occurrence {l : List α} {y : α}
    (h : y ∈ dropDuplicatesBy key l) :
    ∃ l1 l2, l = l1 ++ y :: l2 ∧ ∀ z ∈ l1, key z ≠ key y :=
  dedupByAux_first_occurrence key h

theorem dropDuplicatesBy_eq_self_of_nodup {l : List α}
    (hnd : (l.map key).Nodup) : dropDuplicatesBy key l = l :=
  dedupByAux_eq_self_of_nodup key hnd (by simp)

end DedupLemmas

/-! ## Data model: the five tables of the relational store -/

/-- A row of the `drugs` table (columns `stitch_id`, `common_name`). -/
structure DrugRow where
  stitch_id : String
  common_name : String
deriving DecidableEq

/-- A row of the `side_effects` table (columns `se_code`, `se_name`). -/
structure SERow where
  se_code : String
  se_name : String
deriving DecidableEq

/-- A row of the `drug_side_effects` table.  Phase 2 inserts only
(`drug_id`, `se_code`), leaving the combination flag at its schema default
`false`; Phase 3 inserts rows with the flag set to `true`. -/
structure LinkRow where
  drug_id : String
  se_code : String
  is_combo : Bool
deriving DecidableEq

/-- A row of the `drug_targets` table. -/
structure TargetRow where
  drug_id : String
  protein_id : String
deriving DecidableEq

/-- A row of the `user_logs` table.  The `result_data` JSON payload of a
side-effect report is modelled by its two fields (`payload_drug`,
`payload_symptom`); JSON serialization itself is abstracted away. -/
structure UserLog where
  query_type : String
  input_text : String
  payload_drug : String
  payload_symptom : String
deriving DecidableEq

/-- The database state: the five tables touched by the pipeline and the
serving layer. -/
structure DB where
  drugs : List DrugRow
  side_effects : List SERow
  drug_side_effects : List LinkRow
  drug_targets : List TargetRow
  user_logs : List UserLog
deriving DecidableEq

def DB.empty : DB := ⟨[], [], [], [], []⟩

/-- `is_table_empty` (`import_data.py` lines 17-25): SELECT COUNT(*) == 0. -/
def is_table_empty {α : Type} (t : List α) : Bool := t.length == 0

/-- The stored drug identifiers after the read-side normalization applied in
Phases 2-4 (`str(x).replace(quote, empty).strip()` over
`SELECT stitch_id FROM drugs`). -/
def normalizedDrugIds (db : DB) : List String :=
  db.drugs.map (fun d => normalizeId d.stitch_id)

/-! ## Feed row types -/

/-- A row of the Phase 1 tab-delimited feed (`stitch_id`, `common_name`). -/
abbrev Phase1Feed := List DrugRow

/-- A row of the monotherapy feed: columns 0,1,2 of `bio-decagon-mono`. -/
structure MonoRow where
  stitch_id : String
  se_code : String
  se_name : String
deriving DecidableEq

/-- A row of the combination feed: columns 0-3 of `bio-decagon-combo`. -/
structure ComboRow where
  d1 : String
  d2 : String
  se_code : String
  se_name : String
deriving DecidableEq

/-- A row of the targets feed: columns 0,1 of `bio-decagon-targets`. -/
structure TargetFeedRow where
  drug_id : String
  protein_id : String
deriving DecidableEq

/-! ## The four phase bodies (`import_data.py` lines 58-190) -/

/-- Phase 1 (`import_phase_1_names`, lines 58-78): if `drugs` is non-empty,
skip; otherwise de-duplicate the feed on `stitch_id` keeping first
occurrences and append the result to `drugs`. -/
def import_phase_1_names (feed : Phase1Feed) (db : DB) : DB :=
  if is_table_empty db.drugs then
    { db with drugs := db.drugs ++ dropDuplicatesBy DrugRow.stitch_id feed }
  else db

/-- The side-effect catalog built by Phase 2 (lines 99-101): `(se_code,
se_name)` pairs de-duplicated on `se_code`. -/
def phase2Catalog (rows : List MonoRow) : List SERow :=
  (dropDuplicatesBy MonoRow.se_code rows).map (fun r => SERow.mk r.se_code r.se_name)

/-- The link rows surviving the Phase 2 referential filter (lines 105-117):
normalize the drug identifier of every feed row, then keep the rows whose
identifier is among the normalized stored identifiers. -/
def phase2FilteredLinks (rows : List MonoRow) (db : DB) : List (String × String) :=
  (rows.map (fun r => (normalizeId r.stitch_id, r.se_code))).filter
    (fun p => decide (p.1 ∈ normalizedDrugIds db))

/-- Phase 2 (`import_phase_2_mono`, lines 80-125): if `side_effects` is
non-empty, skip; otherwise append the catalog, then append the filtered link
rows (guarded by the `len > 0` check at line 119). -/
def import_phase_2_mono (rows : List MonoRow) (db : DB) : DB :=
  if is_table_empty db.side_effects then
    let db1 := { db with side_effects := db.side_effects ++ phase2Catalog rows }
    let filtered := phase2FilteredLinks rows db
    if filtered.length > 0 then
      { db1 with drug_side_effects :=
          db1.drug_side_effects ++ filtered.map (fun p => LinkRow.mk p.1 p.2 false) }
    else db1
  else db

/-- The combination rows after identifier normalization (lines 143-144). -/
def phase3Normalized (rows : List ComboRow) : List ComboRow :=
  rows.map (fun r => { r with d1 := normalizeId r.d1, d2 := normalizeId r.d2 })

/-- The combination rows surviving the Phase 3 referential filter (line 147):
both normalized identifiers must be among the normalized stored identifiers. -/
def phase3Filtered (rows : List ComboRow) (db : DB) : List ComboRow :=
  (phase3Normalized rows).filter
    (fun r => decide (r.d1 ∈ normalizedDrugIds db) && decide (r.d2 ∈ normalizedDrugIds db))

/-- The new side-effect catalog rows added by Phase 3 (lines 151-156):
`(se_code, se_name)` of the filtered rows, de-duplicated on `se_code`,
restricted to codes absent from the current catalog. -/
def phase3NewSe (rows : List ComboRow) (db : DB) : List SERow :=
  ((dropDuplicatesBy ComboRow.se_code (phase3Filtered rows db)).map
    (fun r => SERow.mk r.se_code r.se_name)).filter
    (fun s => decide (s.se_code ∉ db.side_effects.map SERow.se_code))

/-- The flattened combination pairs (lines 161-164): the drug-A links
followed by the drug-B links, de-duplicated on the whole `(drug_id, se_code)`
pair keeping first occurrences. -/
def phase3ComboPairs (rows : List ComboRow) (db : DB) : List (String × String) :=
  dropDuplicatesBy id
    ((phase3Filtered rows db).map (fun r => (r.d1, r.se_code)) ++
     (phase3Filtered rows db).map (fun r => (r.d2, r.se_code)))

/-- Phase 3 (`import_phase_3_combo`, lines 127-168): no idempotency gate;
extend the catalog with the new codes and append the combination-flagged
link rows. -/
def import_phase_3_combo (rows : List ComboRow) (db : DB) : DB :=
  { db with
      side_effects := db.side_effects ++ phase3NewSe rows db,
      drug_side_effects := db.drug_side_effects ++
        (phase3ComboPairs rows db).map (fun p => LinkRow.mk p.1 p.2 true) }

/-- The target rows surviving the Phase 4 filter (lines 185-186): normalize
the drug identifier, keep rows referencing a stored drug, then de-duplicate
exact duplicate rows. -/
def phase4Filtered (rows : List TargetFeedRow) (db : DB) : List TargetFeedRow :=
  dropDuplicatesBy id
    ((rows.map (fun r => { r with drug_id := normalizeId r.drug_id })).filter
      (fun r => decide (r.drug_id ∈ normalizedDrugIds db)))

/-- Phase 4 (`import_phase_4_targets`, lines 170-190): no idempotency gate;
append the filtered target rows. -/
def import_phase_4_targets (rows : List TargetFeedRow) (db : DB) : DB :=
  { db with drug_targets := db.drug_targets ++
      (phase4Filtered rows db).map (fun r => TargetRow.mk r.drug_id r.protein_id) }

/-! ## Exception behaviour of the phases and the orchestrator -/

/-- Outcome of a `download_and_extract_gz` call as observed by a phase body:
the call raised (network failure or malformed compressed container), or it
returned None (archive with zero valid members), or it produced a frame. -/
inductive FetchResult (α : Type) where
  | fetchError : String → FetchResult α
  | noFile : FetchResult α
  | frame : α → FetchResult α
deriving DecidableEq

/-- The error raised when a phase body reads `.columns` of a None frame. -/
def noneFrameError : String := "NoneType has no columns"

/-- Phase 1 run: the emptiness gate precedes the fetch; a fetch failure
(`pd.read_csv` raising) is uncaught and escapes the phase. -/
def phase1Run (fetch : Except String Phase1Feed) (db : DB) : Except String DB :=
  if is_table_empty db.drugs then
    match fetch with
    | Except.error e => Except.error e
    | Except.ok feed => Except.ok (import_phase_1_names feed db)
  else Except.ok db

/-- Phase 2 run: the emptiness gate precedes the fetch; the download itself
(line 91) is outside the `try`, so a fetch failure escapes; everything after
it is inside the `try` (lines 93-125), so a None frame (or any processing
error) is caught, logged, and the phase returns normally. -/
def phase2Run (fetch : FetchResult (List MonoRow)) (db : DB) : Except String DB :=
  if is_table_empty db.side_effects then
    match fetch with
    | FetchResult.fetchError e => Except.error e
    | FetchResult.noFile => Except.ok db
    | FetchResult.frame rows => Except.ok (import_phase_2_mono rows db)
  else Except.ok db

/-- Phase 3 run: no `try` anywhere; a fetch failure escapes, and a None
frame raises at `df_combo.columns` (line 136), also uncaught. -/
def phase3Run (fetch : FetchResult (List ComboRow)) (db : DB) : Except String DB :=
  match fetch with
  | FetchResult.fetchError e => Except.error e
  | FetchResult.noFile => Except.error noneFrameError
  | FetchResult.frame rows => Except.ok (import_phase_3_combo rows db)

/-- Phase 4 run: no `try` anywhere; same escape behaviour as Phase 3. -/
def phase4Run (fetch : FetchResult (List TargetFeedRow)) (db : DB) : Except String DB :=
  match fetch with
  | FetchResult.fetchError e => Except.error e
  | FetchResult.noFile => Except.error noneFrameError
  | FetchResult.frame rows => Except.ok (import_phase_4_targets rows db)

/-- The `__main__` orchestration (lines 193-197): the four phases run in
order with no surrounding `try`, so the first escaping exception terminates
the process. -/
def runPipeline (f1 : Except String Phase1Feed) (f2 : FetchResult (List MonoRow))
    (f3 : FetchResult (List ComboRow)) (f4 : FetchResult (List TargetFeedRow))
    (db : DB) : Except String DB := do
  let db1 ← phase1Run f1 db
  let db2 ← phase2Run f2 db1
  let db3 ← phase3Run f3 db2
  phase4Run f4 db3

/-! ## The archive fetcher (`download_and_extract_gz`, lines 27-56) -/

/-- A member of a tar archive: name, regular-file flag, and (for data files)
its parsed tabular content, abstracted to an arbitrary type. -/
structure TarMember (α : Type) where
  name : String
  isfile : Bool
  content : α
deriving DecidableEq

/-- `os.path.basename`: the characters after the last slash. -/
def basename (p : String) : String :=
  String.mk ((p.data.reverse.takeWhile (fun c => decide (c ≠ '/'))).reverse)

/-- Python `str.startswith`, char-list based. -/
def strStartsWith (s pre : String) : Bool := pre.data.isPrefixOf s.data

/-- The member filter at lines 37-40: regular files whose base filename does
not start with the macOS metadata prefix. -/
def validMember {α : Type} (m : TarMember α) : Bool :=
  m.isfile && !(strStartsWith (basename m.name) "._")

/-- `download_and_extract_gz` after a successful download and tar open:
filter the members, return None when no valid member remains, otherwise
parse and return the first valid member. -/
def download_and_extract_gz {α : Type} (members : List (TarMember α)) : Option α :=
  match members.filter validMember with
  | [] => none
  | m :: _ => some m.content

/-! ## Bulk-insert statement sizes (`DataFrame.to_sql`) -/

/-- Sizes of the successive INSERT statements `to_sql` issues for `n` rows
with chunk size `c`: `n / c` full slices of `c` rows followed by the
remainder slice when one is left (`c = 0` never occurs in the embedded
calls and is mapped to a single statement). -/
def chunkSizes (c : Nat) (n : Nat) : List Nat :=
  if c = 0 then (if 0 < n then [n] else [])
  else List.replicate (n / c) c ++ (if n % c = 0 then [] else [n % c])

/-- Statement sizes for a `to_sql` call: pandas default (`none`) writes all
rows in one statement; an explicit `chunksize=c` writes bounded slices.  An
empty frame issues no INSERT. -/
def insertStmtSizes (chunksize : Option Nat) (n : Nat) : List Nat :=
  match chunksize with
  | none => if 0 < n then [n] else []
  | some c => chunkSizes c n

/-- One INSERT statement: target table and number of rows it carries. -/
structure InsertStmt where
  table : String
  rowCount : Nat
deriving DecidableEq

/-- The statements issued by one `to_sql` call. -/
def stmtsFor (table : String) (chunksize : Option Nat) (n : Nat) : List InsertStmt :=
  (insertStmtSizes chunksize n).map (fun k => InsertStmt.mk table k)

/-- INSERT statements issued by Phase 1 (line 77: no chunksize). -/
def phase1Stmts (feed : Phase1Feed) (db : DB) : List InsertStmt :=
  if is_table_empty db.drugs then
    stmtsFor "drugs" none (dropDuplicatesBy DrugRow.stitch_id feed).length
  else []

/-- INSERT statements issued by Phase 2 (line 101: no chunksize;
line 121: chunksize=1000, guarded by the `len > 0` check). -/
def phase2Stmts (rows : List MonoRow) (db : DB) : List InsertStmt :=
  if is_table_empty db.side_effects then
    stmtsFor "side_effects" none (phase2Catalog rows).length ++
    (if (phase2FilteredLinks rows db).length > 0 then
      stmtsFor "drug_side_effects" (some 1000) (phase2FilteredLinks rows db).length
    else [])
  else []

/-- INSERT statements issued by Phase 3 (line 156: no chunksize, guarded by
the non-emptiness check at line 155; line 167: chunksize=1000). -/
def phase3Stmts (rows : List ComboRow) (db : DB) : List InsertStmt :=
  (if (phase3NewSe rows db).isEmpty then []
   else stmtsFor "side_effects" none (phase3NewSe rows db).length) ++
  stmtsFor "drug_side_effects" (some 1000) (phase3ComboPairs rows db).length

/-- INSERT statements issued by Phase 4 (line 189: no chunksize). -/
def phase4Stmts (rows : List TargetFeedRow) (db : DB) : List InsertStmt :=
  stmtsFor "drug_targets" none (phase4Filtered rows db).length

/-! ## Serving layer (`main.py`) -/

/-- Lower-cased character list of a string, for case-insensitive matching. -/
def lowerChars (s : String) : List Char := s.data.map Char.toLower

/-- SQL `hay ILIKE` percent-`pat`-percent: case-insensitive substring test. -/
def ilikeContains (hay pat : String) : Bool :=
  decide (lowerChars pat <:+: lowerChars hay)

/-- The WHERE clause of `report_side_effect` (`main.py` line 109): the
quote-trimmed stored display name must contain the reported name,
case-insensitively. -/
def reportDrugMatch (d : DrugRow) (name : String) : Bool :=
  ilikeContains (pgTrimQuotes d.common_name) name

/-- The WHERE clause of `get_drug_effects` (`main.py` line 99): the raw
stored display name must contain the stripped query, case-insensitively
(no quote trimming on this path). -/
def drugEffectsMatch (d : DrugRow) (name : String) : Bool :=
  ilikeContains d.common_name (pyStrip name)

/-- HTTP outcome of a serving-layer endpoint. -/
inductive ApiStatus where
  | success : ApiStatus
  | notFound : ApiStatus
  | serverError : ApiStatus
deriving DecidableEq

/-- `report_side_effect` (`main.py` lines 105-125): look up the first drug
whose quote-trimmed name matches; 404 when none does; otherwise insert one
`user_logs` row and commit, rolling back to the unchanged state with a 500
when the insert raises (modelled by `insertFails`). -/
def report_side_effect (db : DB) (drug_name symptom : String)
    (insertFails : Bool) : DB × ApiStatus :=
  match db.drugs.find? (fun d => reportDrugMatch d drug_name) with
  | none => (db, ApiStatus.notFound)
  | some _ =>
      if insertFails then (db, ApiStatus.serverError)
      else ({ db with user_logs := db.user_logs ++
                [UserLog.mk "SIDE_EFFECT_REPORT" drug_name drug_name symptom] },
            ApiStatus.success)

/-! ## Characterization lemmas for the phase bodies -/

theorem phase2_side_effects_eq (rows : List MonoRow) (db : DB) :
    (import_phase_2_mono rows db).side_effects
      = if is_table_empty db.side_effects
        then db.side_effects ++ phase2Catalog rows
        else db.side_effects := by
  unfold import_phase_2_mono
  by_cases h1 : is_table_empty db.side_effects = true <;>
    by_cases h2 : (phase2FilteredLinks rows db).length > 0 <;>
      simp [h1, h2]

theorem phase2_links_eq (rows : List MonoRow) (db : DB) :
    (import_phase_2_mono rows db).drug_side_effects
      = if is_table_empty db.side_effects = true
          ∧ (phase2FilteredLinks rows db).length > 0
        then db.drug_side_effects
          ++ (phase2FilteredLinks rows db).map (fun p => LinkRow.mk p.1 p.2 false)
        else db.drug_side_effects := by
  unfold import_phase_2_mono
  by_cases h1 : is_table_empty db.side_effects = true <;>
    by_cases h2 : (phase2FilteredLinks rows db).length > 0 <;>
      simp [h1, h2]

theorem phase2_drugs_eq (rows : List MonoRow) (db : DB) :
    (import_phase_2_mono rows db).drugs = db.drugs := by
  unfold import_phase_2_mono
  by_cases h1 : is_table_empty db.side_effects = true <;>
    by_cases h2 : (phase2FilteredLinks rows db).length > 0 <;>
      simp [h1, h2]

/-- C2: running Phase 1 against a non-empty `drugs` table, or Phase 2
against a non-empty `side_effects` table, performs zero inserts, leaves
every table unchanged, and returns without error (the skip branch). -/
theorem c2_phase_skip_idempotent (feed : Phase1Feed)
    (f1 : Except String Phase1Feed) (mono : List MonoRow)
    (f2 : FetchResult (List MonoRow)) (db : DB) :
    (db.drugs ≠ [] →
      import_phase_1_names feed db = db
      ∧ phase1Run f1 db = Except.ok db
      ∧ phase1Stmts feed db = [])
    ∧ (db.side_effects ≠ [] →
      import_phase_2_mono mono db = db
      ∧ phase2Run f2 db = Except.ok db
      ∧ phase2Stmts mono db = []) := by
  constructor
  · intro hne
    have hfalse : is_table_empty db.drugs = false := by
      simp [is_table_empty, List.length_eq_zero, hne]
    exact ⟨by simp [import_phase_1_names, hfalse],
           by simp [phase1Run, hfalse],
           by simp [phase1Stmts, hfalse]⟩
  · intro hne
    have hfalse : is_table_empty db.side_effects = false := by
      simp [is_table_empty, List.length_eq_zero, hne]
    exact ⟨by simp [import_phase_2_mono, hfalse],
           by simp [phase2Run, hfalse],
           by simp [phase2Stmts, hfalse]⟩

/-- Fixture: a database with one drug and one side effect already stored. -/
def dbOneEach : DB :=
  { DB.empty with
      drugs := [DrugRow.mk "CID001" "AspirinX"],
      side_effects := [SERow.mk "SE01" "Headache"] }

/-- C2 witness: a database whose `drugs` and `side_effects` tables each hold
one row skips Phases 1 and 2 unchanged. -/
theorem c2_phase_skip_idempotent_witness :
    (import_phase_1_names [] dbOneEach = dbOneEach
      ∧ phase1Run (Except.ok []) dbOneEach = Except.ok dbOneEach
      ∧ phase1Stmts [] dbOneEach = [])
    ∧ (import_phase_2_mono [] dbOneEach = dbOneEach
      ∧ phase2Run FetchResult.noFile dbOneEach = Except.ok dbOneEach
      ∧ phase2Stmts [] dbOneEach = []) :=
  ⟨(c2_phase_skip_idempotent [] (Except.ok []) [] FetchResult.noFile dbOneEach).1
      (by decide),
   (c2_phase_skip_idempotent [] (Except.ok []) [] FetchResult.noFile dbOneEach).2
      (by decide)⟩

/-- The Phase 1 feed of spec scenario 1. -/
def feedScenario1 : Phase1Feed :=
  [DrugRow.mk "CID001" "AspirinX", DrugRow.mk "CID001" "AspirinX-dup",
   DrugRow.mk "CID002" "Bcillin"]

/-- C3: Phase 1 starting from an empty `drugs` table de-duplicates the feed
by `stitch_id` keeping the first occurrence of each identifier and inserts
exactly the surviving rows (the result has pairwise-distinct identifiers, is
a sublist of the feed, covers every feed identifier, and every kept row is
the first feed row bearing its identifier); concretely, the scenario-1 feed
leaves exactly CID001/AspirinX and CID002/Bcillin. -/
theorem c3_phase1_dedup_keep_first (feed : Phase1Feed) (db : DB)
    (hempty : db.drugs = []) :
    ((import_phase_1_names feed db).drugs.map DrugRow.stitch_id).Nodup
    ∧ (import_phase_1_names feed db).drugs.Sublist feed
    ∧ (∀ x ∈ feed, ∃ y ∈ (import_phase_1_names feed db).drugs,
        y.stitch_id = x.stitch_id)
    ∧ (∀ y ∈ (import_phase_1_names feed db).drugs,
        ∃ l1 l2, feed = l1 ++ y :: l2 ∧ ∀ z ∈ l1, z.stitch_id ≠ y.stitch_id)
    ∧ (import_phase_1_names feedScenario1 DB.empty).drugs
       = [DrugRow.mk "CID001" "AspirinX", DrugRow.mk "CID002" "Bcillin"] := by
  have hd : (import_phase_1_names feed db).drugs
      = dropDuplicatesBy DrugRow.stitch_id feed := by
    simp [import_phase_1_names, is_table_empty, hempty]
  refine ⟨?_, ?_, ?_, ?_, ?_⟩
  · rw [hd]; exact keys_nodup_dropDuplicatesBy _ _
  · rw [hd]; exact dropDuplicatesBy_sublist _ _
  · intro x hx; rw [hd]; exact dropDuplicatesBy_complete _ hx
  · intro y hy; rw [hd] at hy; exact dropDuplicatesBy_first_occurrence _ hy
  · decide

/-- C3 witness: the theorem applied at the scenario-1 feed and the empty
database. -/
theorem c3_phase1_dedup_keep_first_witness :
    (import_phase_1_names feedScenario1 DB.empty).drugs
      = [DrugRow.mk "CID001" "AspirinX", DrugRow.mk "CID002" "Bcillin"] :=
  (c3_phase1_dedup_keep_first feedScenario1 DB.empty rfl).2.2.2.2

/-- Fixture: the two known drugs of spec scenarios 2 and 3. -/
def dbTwoDrugs : DB :=
  { DB.empty with
      drugs := [DrugRow.mk "CID001" "AspirinX", DrugRow.mk "CID002" "Bcillin"] }

/-- Fixture: the monotherapy feed of spec scenario 2 (CID999 unknown). -/
def monoScenario2 : List MonoRow :=
  [MonoRow.mk "CID001" "SE01" "Headache",
   MonoRow.mk "CID999" "SE01" "Headache",
   MonoRow.mk "CID002" "SE02" "Nausea"]

/-- C1: every row of `drug_side_effects` after Phase 2 or Phase 3, and every
row of `drug_targets` after Phase 4, either was already stored or carries a
drug identifier present in the `drugs` table at insertion time (as the code
compares identifiers: after normalization of the stored values); rows whose
identifier is unknown are filtered out before insertion, never inserted and
never an error. -/
theorem c1_inserted_rows_reference_known_drugs (mono : List MonoRow)
    (combo : List ComboRow) (targets : List TargetFeedRow) (db : DB) :
    (∀ l ∈ (import_phase_2_mono mono db).drug_side_effects,
        l ∈ db.drug_side_effects ∨ l.drug_id ∈ normalizedDrugIds db)
    ∧ (∀ l ∈ (import_phase_3_combo combo db).drug_side_effects,
        l ∈ db.drug_side_effects ∨ l.drug_id ∈ normalizedDrugIds db)
    ∧ (∀ t ∈ (import_phase_4_targets targets db).drug_targets,
        t ∈ db.drug_targets ∨ t.drug_id ∈ normalizedDrugIds db) := by
  refine ⟨?_, ?_, ?_⟩
  · intro l hl
    rw [phase2_links_eq] at hl
    split at hl
    · rcases List.mem_append.mp hl with h1 | h1
      · exact Or.inl h1
      · rcases List.mem_map.mp h1 with ⟨pr, hp, hpe⟩
        right
        have hmem := (List.mem_filter.mp hp).2
        subst hpe
        simpa using hmem
    · exact Or.inl hl
  · intro l hl
    have hl2 : l ∈ db.drug_side_effects
        ++ (phase3ComboPairs combo db).map (fun p => LinkRow.mk p.1 p.2 true) := hl
    rcases List.mem_append.mp hl2 with h1 | h1
    · exact Or.inl h1
    · rcases List.mem_map.mp h1 with ⟨pr, hp, hpe⟩
      right
      have hp2 : pr ∈ (phase3Filtered combo db).map (fun r => (r.d1, r.se_code))
          ++ (phase3Filtered combo db).map (fun r => (r.d2, r.se_code)) :=
        (dropDuplicatesBy_sublist id _).subset hp
      subst hpe
      rcases List.mem_append.mp hp2 with h2 | h2 <;>
        rcases List.mem_map.mp h2 with ⟨r, hr, hre⟩
      · have hcond := (List.mem_filter.mp hr).2
        simp only [Bool.and_eq_true, decide_eq_true_eq] at hcond
        have : pr.1 = r.d1 := by rw [← hre]
        rw [this]
        exact hcond.1
      · have hcond := (List.mem_filter.mp hr).2
        simp only [Bool.and_eq_true, decide_eq_true_eq] at hcond
        have : pr.1 = r.d2 := by rw [← hre]
        rw [this]
        exact hcond.2
  · intro t ht
    have ht2 : t ∈ db.drug_targets
        ++ (phase4Filtered targets db).map
            (fun r => TargetRow.mk r.drug_id r.protein_id) := ht
    rcases List.mem_append.mp ht2 with h1 | h1
    · exact Or.inl h1
    · rcases List.mem_map.mp h1 with ⟨r, hr, hre⟩
      right
      have hr2 : r ∈ (targets.map
            (fun r => { r with drug_id := normalizeId r.drug_id })).filter
          (fun r => decide (r.drug_id ∈ normalizedDrugIds db)) :=
        (dropDuplicatesBy_sublist id _).subset hr
      have hcond := (List.mem_filter.mp hr2).2
      have : t.drug_id = r.drug_id := by rw [← hre]
      rw [this]
      simpa using hcond

/-- C1 witness: in scenario 2, the link CID001/SE01 inserted by Phase 2
references a drug stored in the fixture database. -/
theorem c1_inserted_rows_reference_known_drugs_witness :
    LinkRow.mk "CID001" "SE01" false ∈ dbTwoDrugs.drug_side_effects
    ∨ "CID001" ∈ normalizedDrugIds dbTwoDrugs :=
  (c1_inserted_rows_reference_known_drugs monoScenario2 [] [] dbTwoDrugs).1
    (LinkRow.mk "CID001" "SE01" false) (by decide)

/-- Fixture: the combination feed of spec scenario 3. -/
def comboScenario : List ComboRow := [ComboRow.mk "CID001" "CID002" "SE03" "Rash"]

/-- C4: Phase 3 keeps only combination rows whose two normalized drug
identifiers are both known, extends `side_effects` with exactly the codes of
surviving rows that are absent from the catalog, and inserts two
combination-flagged link rows per surviving row (one per drug) with exact
duplicate (drug, code) pairs de-duplicated; concretely, scenario 3 adds SE03
and exactly the links (CID001, SE03) and (CID002, SE03). -/
theorem c4_phase3_combo_links (combo : List ComboRow) (db : DB) :
    (∀ l ∈ (import_phase_3_combo combo db).drug_side_effects,
        l ∈ db.drug_side_effects
        ∨ (l.is_combo = true ∧ ∃ r ∈ combo,
            normalizeId r.d1 ∈ normalizedDrugIds db
            ∧ normalizeId r.d2 ∈ normalizedDrugIds db
            ∧ (l.drug_id = normalizeId r.d1 ∨ l.drug_id = normalizeId r.d2)
            ∧ l.se_code = r.se_code))
    ∧ (∀ s ∈ (import_phase_3_combo combo db).side_effects,
        s ∈ db.side_effects
        ∨ (s.se_code ∉ db.side_effects.map SERow.se_code ∧ ∃ r ∈ combo,
            normalizeId r.d1 ∈ normalizedDrugIds db
            ∧ normalizeId r.d2 ∈ normalizedDrugIds db
            ∧ s.se_code = r.se_code ∧ s.se_name = r.se_name))
    ∧ (∀ r ∈ combo, normalizeId r.d1 ∈ normalizedDrugIds db →
        normalizeId r.d2 ∈ normalizedDrugIds db →
        LinkRow.mk (normalizeId r.d1) r.se_code true
            ∈ (import_phase_3_combo combo db).drug_side_effects
        ∧ LinkRow.mk (normalizeId r.d2) r.se_code true
            ∈ (import_phase_3_combo combo db).drug_side_effects
        ∧ r.se_code ∈ (import_phase_3_combo combo db).side_effects.map SERow.se_code)
    ∧ (((import_phase_3_combo combo db).drug_side_effects.drop
          db.drug_side_effects.length).map (fun l => (l.drug_id, l.se_code))).Nodup
    ∧ import_phase_3_combo comboScenario dbTwoDrugs
        = { dbTwoDrugs with
              side_effects := [SERow.mk "SE03" "Rash"],
              drug_side_effects :=
                [LinkRow.mk "CID001" "SE03" true, LinkRow.mk "CID002" "SE03" true] } := by
  have hlinks : (import_phase_3_combo combo db).drug_side_effects
      = db.drug_side_effects
        ++ (phase3ComboPairs combo db).map (fun p => LinkRow.mk p.1 p.2 true) := rfl
  have hse : (import_phase_3_combo combo db).side_effects
      = db.side_effects ++ phase3NewSe combo db := rfl
  refine ⟨?_, ?_, ?_, ?_, ?_⟩
  · intro l hl
    rw [hlinks] at hl
    rcases List.mem_append.mp hl with h1 | h1
    · exact Or.inl h1
    · right
      rcases List.mem_map.mp h1 with ⟨pr, hp, hpe⟩
      have hp2 : pr ∈ (phase3Filtered combo db).map (fun r => (r.d1, r.se_code))
          ++ (phase3Filtered combo db).map (fun r => (r.d2, r.se_code)) :=
        (dropDuplicatesBy_sublist id _).subset hp
      refine ⟨by rw [← hpe], ?_⟩
      rcases List.mem_append.mp hp2 with h2 | h2 <;>
          rcases List.mem_map.mp h2 with ⟨r1, hr1, hre⟩ <;>
          obtain ⟨hmem, hcond⟩ := List.mem_filter.mp hr1 <;>
          rcases List.mem_map.mp hmem with ⟨r0, hr0, hr0e⟩ <;>
          simp only [Bool.and_eq_true, decide_eq_true_eq] at hcond
      · refine ⟨r0, hr0, ?_, ?_, ?_, ?_⟩
        · rw [show normalizeId r0.d1 = r1.d1 by rw [← hr0e]]; exact hcond.1
        · rw [show normalizeId r0.d2 = r1.d2 by rw [← hr0e]]; exact hcond.2
        · left
          rw [show l.drug_id = pr.1 by rw [← hpe], show pr.1 = r1.d1 by rw [← hre],
            show r1.d1 = normalizeId r0.d1 by rw [← hr0e]]
        · rw [show l.se_code = pr.2 by rw [← hpe], show pr.2 = r1.se_code by rw [← hre],
            show r1.se_code = r0.se_code by rw [← hr0e]]
      · refine ⟨r0, hr0, ?_, ?_, ?_, ?_⟩
        · rw [show normalizeId r0.d1 = r1.d1 by rw [← hr0e]]; exact hcond.1
        · rw [show normalizeId r0.d2 = r1.d2 by rw [← hr0e]]; exact hcond.2
        · right
          rw [show l.drug_id = pr.1 by rw [← hpe], show pr.1 = r1.d2 by rw [← hre],
            show r1.d2 = normalizeId r0.d2 by rw [← hr0e]]
        · rw [show l.se_code = pr.2 by rw [← hpe], show pr.2 = r1.se_code by rw [← hre],
            show r1.se_code = r0.se_code by rw [← hr0e]]
  · intro s hs
    rw [hse] at hs
    rcases List.mem_append.mp hs with h1 | h1
    · exact Or.inl h1
    · right
      obtain ⟨hmem, hcond⟩ := List.mem_filter.mp h1
      rcases List.mem_map.mp hmem with ⟨r1, hr1, hre⟩
      have hr2 : r1 ∈ phase3Filtered combo db :=
        (dropDuplicatesBy_sublist ComboRow.se_code _).subset hr1
      obtain ⟨hmem2, hcond2⟩ := List.mem_filter.mp hr2
      rcases List.mem_map.mp hmem2 with ⟨r0, hr0, hr0e⟩
      simp only [Bool.and_eq_true, decide_eq_true_eq] at hcond2
      simp only [decide_eq_true_eq] at hcond
      refine ⟨by rw [show s.se_code = r1.se_code by rw [← hre]]
                 rw [show r1.se_code = r0.se_code by rw [← hr0e]]
                 rw [show r0.se_code = r1.se_code by rw [← hr0e]]
                 exact (by rw [show r1.se_code = s.se_code by rw [← hre]]; exact hcond),
             r0, hr0, ?_, ?_, ?_, ?_⟩
      · rw [show normalizeId r0.d1 = r1.d1 by rw [← hr0e]]; exact hcond2.1
      · rw [show normalizeId r0.d2 = r1.d2 by rw [← hr0e]]; exact hcond2.2
      · rw [show s.se_code = r1.se_code by rw [← hre],
          show r1.se_code = r0.se_code by rw [← hr0e]]
      · rw [show s.se_name = r1.se_name by rw [← hre],
          show r1.se_name = r0.se_name by rw [← hr0e]]
  · intro r hr h1 h2
    have hnorm : { r with d1 := normalizeId r.d1, d2 := normalizeId r.d2 }
        ∈ phase3Normalized combo := List.mem_map.mpr ⟨r, hr, rfl⟩
    have hfilt : { r with d1 := normalizeId r.d1, d2 := normalizeId r.d2 }
        ∈ phase3Filtered combo db := by
      apply List.mem_filter.mpr
      exact ⟨hnorm, by simp [h1, h2]⟩
    constructor
    · have hpair : (normalizeId r.d1, r.se_code)
          ∈ (phase3Filtered combo db).map (fun x => (x.d1, x.se_code))
          ++ (phase3Filtered combo db).map (fun x => (x.d2, x.se_code)) :=
        List.mem_append.mpr (Or.inl (List.mem_map.mpr ⟨_, hfilt, rfl⟩))
      rcases dropDuplicatesBy_complete id hpair with ⟨y, hy, hye⟩
      have hyp : y = (normalizeId r.d1, r.se_code) := hye
      rw [hlinks]
      apply List.mem_append.mpr
      right
      exact List.mem_map.mpr ⟨y, hy, by rw [hyp]⟩
    constructor
    · have hpair : (normalizeId r.d2, r.se_code)
          ∈ (phase3Filtered combo db).map (fun x => (x.d1, x.se_code))
          ++ (phase3Filtered combo db).map (fun x => (x.d2, x.se_code)) :=
        List.mem_append.mpr (Or.inr (List.mem_map.mpr ⟨_, hfilt, rfl⟩))
      rcases dropDuplicatesBy_complete id hpair with ⟨y, hy, hye⟩
      have hyp : y = (normalizeId r.d2, r.se_code) := hye
      rw [hlinks]
      apply List.mem_append.mpr
      right
      exact List.mem_map.mpr ⟨y, hy, by rw [hyp]⟩
    · rw [hse]
      by_cases hin : r.se_code ∈ db.side_effects.map SERow.se_code
      · rcases List.mem_map.mp hin with ⟨s, hsmem, hsc⟩
        exact List.mem_map.mpr ⟨s, List.mem_append.mpr (Or.inl hsmem), hsc⟩
      · rcases dropDuplicatesBy_complete ComboRow.se_code hfilt with ⟨y, hy, hye⟩
        have hyse : y.se_code = r.se_code := hye
        have hsrow : SERow.mk y.se_code y.se_name ∈ phase3NewSe combo db := by
          apply List.mem_filter.mpr
          refine ⟨List.mem_map.mpr ⟨y, hy, rfl⟩, ?_⟩
          simp only [decide_eq_true_eq]
          show y.se_code ∉ List.map SERow.se_code db.side_effects
          rw [hyse]
          exact hin
        exact List.mem_map.mpr
          ⟨SERow.mk y.se_code y.se_name, List.mem_append.mpr (Or.inr hsrow), hyse⟩
  · have hdrop : (import_phase_3_combo combo db).drug_side_effects.drop
        db.drug_side_effects.length
        = (phase3ComboPairs combo db).map (fun p => LinkRow.mk p.1 p.2 true) := by
      rw [hlinks, List.drop_left]
    rw [hdrop, List.map_map]
    have hcomp : ((fun l : LinkRow => (l.drug_id, l.se_code))
        ∘ (fun p : String × String => LinkRow.mk p.1 p.2 true)) = id := rfl
    rw [hcomp, List.map_id]
    have := keys_nodup_dropDuplicatesBy (id : String × String → String × String)
      ((phase3Filtered combo db).map (fun r => (r.d1, r.se_code))
        ++ (phase3Filtered combo db).map (fun r => (r.d2, r.se_code)))
    simpa [phase3ComboPairs] using this
  · decide

/-- C4 witness: the completeness conjunct applied at scenario 3. -/
theorem c4_phase3_combo_links_witness :
    LinkRow.mk (normalizeId "CID001") "SE03" true
        ∈ (import_phase_3_combo comboScenario dbTwoDrugs).drug_side_effects
    ∧ LinkRow.mk (normalizeId "CID002") "SE03" true
        ∈ (import_phase_3_combo comboScenario dbTwoDrugs).drug_side_effects
    ∧ "SE03" ∈ (import_phase_3_combo comboScenario dbTwoDrugs).side_effects.map
        SERow.se_code :=
  (c4_phase3_combo_links comboScenario dbTwoDrugs).2.2.1
    (ComboRow.mk "CID001" "CID002" "SE03" "Rash") (by decide) (by decide) (by decide)

/-! ## C5: exception propagation through the orchestrator -/

/-- C5 counterexample: the claim says every in-phase failure is caught at
the phase boundary and the orchestrator proceeds past a failed phase; but a
fetch failure in Phase 3 escapes the phase (no `try` in
`import_phase_3_combo` and none in `__main__`) and terminates the
orchestrator with that error. -/
theorem c5_counterexample :
    runPipeline (Except.ok []) (FetchResult.frame []) (FetchResult.fetchError "boom")
      (FetchResult.frame []) DB.empty = Except.error "boom" := rfl

/-- C5 amended: only Phase 2 catches failures, and only those arising after
a successful archive fetch (its `try` starts after the download); a fetch
failure in any phase, and any failure inside Phases 1, 3 or 4 (including a
None frame from the extractor), escapes the phase, and the orchestrator,
which wraps no phase in a handler, terminates at the first escaping error
instead of proceeding past it. -/
theorem c5_amended_only_phase2_catches :
    (∀ (f2 : FetchResult (List MonoRow)) (db : DB),
        (∀ e, f2 ≠ FetchResult.fetchError e) →
        ∃ d, phase2Run f2 db = Except.ok d)
    ∧ (∀ (e : String) (db : DB),
        phase3Run (FetchResult.fetchError e) db = Except.error e)
    ∧ (∀ db : DB, phase3Run (FetchResult.noFile : FetchResult (List ComboRow)) db
        = Except.error noneFrameError)
    ∧ (∀ (f1 : Except String Phase1Feed) (f2 : FetchResult (List MonoRow))
        (f4 : FetchResult (List TargetFeedRow)) (db db1 db2 : DB) (e : String),
        phase1Run f1 db = Except.ok db1 → phase2Run f2 db1 = Except.ok db2 →
        runPipeline f1 f2 (FetchResult.fetchError e) f4 db = Except.error e) := by
  refine ⟨?_, ?_, ?_, ?_⟩
  · intro f2 db hne
    cases f2 with
    | fetchError e => exact absurd rfl (hne e)
    | noFile =>
        unfold phase2Run
        split <;> exact ⟨_, rfl⟩
    | frame rows =>
        unfold phase2Run
        split <;> exact ⟨_, rfl⟩
  · intro e db; rfl
  · intro db; rfl
  · intro f1 f2 f4 db db1 db2 e h1 h2
    simp [runPipeline, h1, h2, phase3Run, Bind.bind, Except.bind]

/-- C5 amended witness: Phase 2 swallows a missing-data-file condition, while
a Phase 3 fetch failure aborts the whole pipeline run. -/
theorem c5_amended_only_phase2_catches_witness :
    (∃ d, phase2Run (FetchResult.noFile : FetchResult (List MonoRow)) DB.empty
        = Except.ok d)
    ∧ runPipeline (Except.ok []) (FetchResult.frame [])
        (FetchResult.fetchError "net down") (FetchResult.frame []) DB.empty
      = Except.error "net down" :=
  ⟨c5_amended_only_phase2_catches.1 FetchResult.noFile DB.empty
      (fun _ h => nomatch h),
   c5_amended_only_phase2_catches.2.2.2 (Except.ok []) (FetchResult.frame [])
      (FetchResult.frame []) DB.empty DB.empty (import_phase_2_mono [] DB.empty)
      "net down" rfl rfl⟩

/-! ## C6: the archive member filter -/

/-- C6: the archive fetcher excludes members that are not regular files or
whose base filename starts with the metadata prefix; when no valid member
remains it returns the explicit absent result `none` (not an exception);
otherwise it returns the content of the first remaining member. -/
theorem c6_archive_member_filter {α : Type} (members : List (TarMember α)) :
    ((∀ m ∈ members, validMember m = false) →
        download_and_extract_gz members = none)
    ∧ (∀ f, download_and_extract_gz members = some f →
        ∃ pre m post, members = pre ++ m :: post
          ∧ m.isfile = true
          ∧ strStartsWith (basename m.name) "._" = false
          ∧ f = m.content
          ∧ ∀ m2 ∈ pre, validMember m2 = false) := by
  constructor
  · intro h
    have hnil : members.filter validMember = [] :=
      List.filter_eq_nil_iff.mpr (fun m hm => by simp [h m hm])
    unfold download_and_extract_gz
    rw [hnil]
  · intro f hf
    unfold download_and_extract_gz at hf
    cases hfil : members.filter validMember with
    | nil => rw [hfil] at hf; exact nomatch hf
    | cons m rest =>
        rw [hfil] at hf
        have hfc : m.content = f := by
          simpa using hf
        rcases List.filter_eq_cons_iff.mp hfil with ⟨l1, l2, hmem, hpre, hvalid, _⟩
        have hv := (Bool.and_eq_true ..).mp hvalid
        refine ⟨l1, m, l2, hmem, hv.1, by simpa using hv.2, hfc.symm, ?_⟩
        intro m2 hm2
        have := hpre m2 hm2
        simpa using this

/-- Fixtures: a macOS metadata member, a directory member, a data member. -/
def tarHidden : TarMember Nat := TarMember.mk "data/._combo.csv" true 0

def tarDir : TarMember Nat := TarMember.mk "data" false 1

def tarGood : TarMember Nat := TarMember.mk "data/combo.csv" true 2

/-- C6 witness: an archive with only invalid members yields `none`; an
archive whose valid member follows two invalid ones yields its content. -/
theorem c6_archive_member_filter_witness :
    download_and_extract_gz [tarHidden, tarDir] = none
    ∧ ∃ pre m post, [tarHidden, tarDir, tarGood] = pre ++ m :: post
        ∧ m.isfile = true
        ∧ strStartsWith (basename m.name) "._" = false
        ∧ (2 : Nat) = m.content
        ∧ ∀ m2 ∈ pre, validMember m2 = false :=
  ⟨(c6_archive_member_filter [tarHidden, tarDir]).1 (by decide),
   (c6_archive_member_filter [tarHidden, tarDir, tarGood]).2 2 (by decide)⟩

/-! ## C8: bulk-insert statement sizes -/

theorem chunkSizes_le {c : Nat} (hc : 0 < c) (n : Nat) :
    ∀ s ∈ chunkSizes c n, s ≤ c := by
  intro s hs
  unfold chunkSizes at hs
  rw [if_neg (by omega)] at hs
  rcases List.mem_append.mp hs with h | h
  · have := List.eq_of_mem_replicate h
    omega
  · split at h
    · simp at h
    · have h1 := List.mem_singleton.mp h
      have h2 : n % c < c := Nat.mod_lt n hc
      omega

theorem stmtsFor_none_rows (t : String) (n : Nat) :
    ∀ s ∈ stmtsFor t none n, s = InsertStmt.mk t n := by
  intro s hs
  simp only [stmtsFor, insertStmtSizes] at hs
  split at hs
  · simpa using hs
  · simp at hs

theorem stmtsFor_chunk_le (t : String) {c : Nat} (hc : 0 < c) (n : Nat) :
    ∀ s ∈ stmtsFor t (some c) n, s.table = t ∧ s.rowCount ≤ c := by
  intro s hs
  simp only [stmtsFor, insertStmtSizes] at hs
  rcases List.mem_map.mp hs with ⟨k, hk, hke⟩
  subst hke
  exact ⟨rfl, chunkSizes_le hc n k hk⟩

/-- A Phase 1 feed of `n` pairwise-distinct identifiers (the identifier of
row `i` is the letter a repeated `i` times). -/
def bigFeed (n : Nat) : Phase1Feed :=
  (List.range n).map (fun i => DrugRow.mk (String.mk (List.replicate i 'a')) "x")

theorem bigFeed_keys_nodup (n : Nat) :
    ((bigFeed n).map DrugRow.stitch_id).Nodup := by
  unfold bigFeed
  rw [List.map_map]
  apply List.Nodup.map ?_ (List.nodup_range n)
  intro i j hij
  have := congrArg (fun s : String => s.data.length) hij
  simpa using this

theorem phase1_bigFeed_stmt (B : Nat) :
    InsertStmt.mk "drugs" (B + 1) ∈ phase1Stmts (bigFeed (B + 1)) DB.empty := by
  have hdedup : dropDuplicatesBy DrugRow.stitch_id (bigFeed (B + 1))
      = bigFeed (B + 1) :=
    dropDuplicatesBy_eq_self_of_nodup _ (bigFeed_keys_nodup (B + 1))
  have hlen : (bigFeed (B + 1)).length = B + 1 := by simp [bigFeed]
  simp [phase1Stmts, is_table_empty, DB.empty, hdedup, hlen, stmtsFor,
    insertStmtSizes]

/-- C8 counterexample: no fixed bound limits the rows of every INSERT
statement: Phase 1 writes its whole de-duplicated feed in one statement
(no chunksize at line 77), so a feed of `B + 1` distinct drugs defeats any
proposed bound `B`. -/
theorem c8_counterexample :
    ¬ ∃ B : Nat, ∀ (feed : Phase1Feed) (mono : List MonoRow)
        (combo : List ComboRow) (targets : List TargetFeedRow)
        (db1 db2 db3 db4 : DB),
        ∀ s ∈ phase1Stmts feed db1 ++ phase2Stmts mono db2
            ++ phase3Stmts combo db3 ++ phase4Stmts targets db4,
          s.rowCount ≤ B := by
  rintro ⟨B, hB⟩
  have hmem : InsertStmt.mk "drugs" (B + 1)
      ∈ phase1Stmts (bigFeed (B + 1)) DB.empty ++ phase2Stmts [] DB.empty
        ++ phase3Stmts [] DB.empty ++ phase4Stmts [] DB.empty := by
    apply List.mem_append.mpr
    left
    apply List.mem_append.mpr
    left
    apply List.mem_append.mpr
    left
    exact phase1_bigFeed_stmt B
  have hle := hB (bigFeed (B + 1)) [] [] [] DB.empty DB.empty DB.empty DB.empty
    (InsertStmt.mk "drugs" (B + 1)) hmem
  have : B + 1 ≤ B := hle
  omega

/-- C8 amended: only the `drug_side_effects` bulk inserts of Phases 2 and 3
carry a chunksize (1000 rows per statement at most); the `drugs` insert of
Phase 1, the `side_effects` inserts of Phases 2 and 3, and the
`drug_targets` insert of Phase 4 are issued as one single statement carrying
the whole batch. -/
theorem c8_amended_only_link_inserts_chunked (feed : Phase1Feed)
    (mono : List MonoRow) (combo : List ComboRow) (targets : List TargetFeedRow)
    (db1 db2 db3 db4 : DB) :
    (∀ s ∈ phase2Stmts mono db2 ++ phase3Stmts combo db3,
        s.table = "drug_side_effects" → s.rowCount ≤ 1000)
    ∧ (∀ s ∈ phase1Stmts feed db1,
        s = InsertStmt.mk "drugs" (dropDuplicatesBy DrugRow.stitch_id feed).length)
    ∧ (∀ s ∈ phase4Stmts targets db4,
        s = InsertStmt.mk "drug_targets" (phase4Filtered targets db4).length) := by
  refine ⟨?_, ?_, ?_⟩
  · intro s hs htab
    rcases List.mem_append.mp hs with h | h
    · unfold phase2Stmts at h
      split at h
      · rcases List.mem_append.mp h with h2 | h2
        · have := stmtsFor_none_rows _ _ s h2
          subst this
          have ht2 : "side_effects" = "drug_side_effects" := htab
          exact absurd ht2 (by decide)
        · split at h2
          · exact (stmtsFor_chunk_le _ (by omega) _ s h2).2
          · simp at h2
      · simp at h
    · unfold phase3Stmts at h
      rcases List.mem_append.mp h with h2 | h2
      · split at h2
        · simp at h2
        · have := stmtsFor_none_rows _ _ s h2
          subst this
          have ht2 : "side_effects" = "drug_side_effects" := htab
          exact absurd ht2 (by decide)
      · exact (stmtsFor_chunk_le _ (by omega) _ s h2).2
  · intro s hs
    unfold phase1Stmts at hs
    split at hs
    · exact stmtsFor_none_rows _ _ s hs
    · simp at hs
  · intro s hs
    exact stmtsFor_none_rows _ _ s hs

/-- C8 amended witness: in scenario 2 the Phase 2 link insert is one
statement of 2 rows, within the 1000-row chunk bound. -/
theorem c8_amended_only_link_inserts_chunked_witness :
    (InsertStmt.mk "drug_side_effects" 2).rowCount ≤ 1000 :=
  (c8_amended_only_link_inserts_chunked [] monoScenario2 [] [] DB.empty
      dbTwoDrugs DB.empty DB.empty).1
    (InsertStmt.mk "drug_side_effects" 2) (by decide) rfl

/-! ## C9: quote handling for display names -/

/-- Fixture: a display name wrapped in stray quotes, as in the source feed. -/
def quotedName : String := quoteStr ++ "Aspirin" ++ quoteStr

/-- Fixture: a Phase 1 feed whose only row has a quoted display name. -/
def feedQuoted : Phase1Feed := [DrugRow.mk "CID001" quotedName]

/-- C9 counterexample: Phase 1 persists the display name verbatim — the
stored `common_name` still contains the quote characters of the source
feed, contradicting the claim that no stray quotes survive persistence. -/
theorem c9_counterexample :
    (import_phase_1_names feedQuoted DB.empty).drugs
      = [DrugRow.mk "CID001" quotedName]
    ∧ quoteChar ∈ quotedName.data := by
  constructor
  · decide
  · decide

/-- C9 amended: Phase 1 stores display names exactly as fetched (quotes
included); quote handling happens at read time instead: the
report-side-effect lookup compares against the quote-trimmed stored name,
while the drug-effects lookup compares against the raw stored name.
Concretely, for the stored name quote-Aspirin-quote, a query equal to the
quoted string fails the report match (the trimmed name no longer contains
the quotes) yet passes the raw drug-effects match, and the unquoted query
"aspirin" passes the report match. -/
theorem c9_amended_names_stored_verbatim (feed : Phase1Feed) (db : DB) :
    (∀ d ∈ (import_phase_1_names feed db).drugs, d ∈ db.drugs ∨ d ∈ feed)
    ∧ reportDrugMatch (DrugRow.mk "CID001" quotedName) quotedName = false
    ∧ drugEffectsMatch (DrugRow.mk "CID001" quotedName) quotedName = true
    ∧ reportDrugMatch (DrugRow.mk "CID001" quotedName) "aspirin" = true := by
  refine ⟨?_, by decide, by decide, by decide⟩
  intro d hd
  by_cases hg : is_table_empty db.drugs = true
  · simp only [import_phase_1_names, if_pos hg] at hd
    rcases List.mem_append.mp hd with h | h
    · exact Or.inl h
    · exact Or.inr ((dropDuplicatesBy_sublist _ _).subset h)
  · simp only [import_phase_1_names, if_neg hg] at hd
    exact Or.inl hd

/-- C9 amended witness: the storage conjunct applied at the quoted-name
feed and the empty database. -/
theorem c9_amended_names_stored_verbatim_witness :
    DrugRow.mk "CID001" quotedName ∈ DB.empty.drugs
    ∨ DrugRow.mk "CID001" quotedName ∈ feedQuoted :=
  (c9_amended_names_stored_verbatim feedQuoted DB.empty).1
    (DrugRow.mk "CID001" quotedName) (by decide)

/-! ## C10: the report-side-effect endpoint -/

/-- C10: report_side_effect returns 404 and inserts nothing when no stored
drug matches (quote-trimmed name, case-insensitive substring); appends
exactly one `user_logs` row and returns success when a match exists and the
insert succeeds; and rolls back to the unchanged state with a 500 when the
insert raises. -/
theorem c10_report_side_effect_contract (db : DB) (q sym : String) :
    ((∀ d ∈ db.drugs, reportDrugMatch d q = false) →
        ∀ b, report_side_effect db q sym b = (db, ApiStatus.notFound))
    ∧ ((∃ d ∈ db.drugs, reportDrugMatch d q = true) →
        report_side_effect db q sym false
          = ({ db with user_logs := db.user_logs
                ++ [UserLog.mk "SIDE_EFFECT_REPORT" q q sym] }, ApiStatus.success)
        ∧ report_side_effect db q sym true = (db, ApiStatus.serverError)) := by
  constructor
  · intro h b
    have hnone : db.drugs.find? (fun d => reportDrugMatch d q) = none :=
      List.find?_eq_none.mpr (fun d hd => by simp [h d hd])
    simp [report_side_effect, hnone]
  · rintro ⟨d, hd, hmatch⟩
    cases hfind : db.drugs.find? (fun d => reportDrugMatch d q) with
    | none =>
        exact absurd hmatch (by simpa using List.find?_eq_none.mp hfind d hd)
    | some x =>
        constructor <;> simp [report_side_effect, hfind]

/-- C10 witness: with one stored drug AspirinX, reporting "aspirin" appends
one log row on success and leaves the database unchanged on insert
failure. -/
theorem c10_report_side_effect_contract_witness :
    report_side_effect dbOneEach "aspirin" "nausea" false
      = ({ dbOneEach with user_logs := dbOneEach.user_logs
            ++ [UserLog.mk "SIDE_EFFECT_REPORT" "aspirin" "aspirin" "nausea"] },
         ApiStatus.success)
    ∧ report_side_effect dbOneEach "aspirin" "nausea" true
      = (dbOneEach, ApiStatus.serverError) :=
  (c10_report_side_effect_contract dbOneEach "aspirin" "nausea").2
    ⟨DrugRow.mk "CID001" "AspirinX", by decide, by decide⟩
